import Mathlib

/-!
Verification of the ai-file-manager path-resolution and confinement engine.

The repository ships two implementations of the file-handling / workspace
logic: a legacy one (`file_handler.py`, `workspace_manager.py`) and a
Pydantic-based one (`src/file_manager_project/...`).  Both are embedded
here.  Paths are modelled as lists of segments below the filesystem root
(the embedding of `pathlib` components on a symlink-free POSIX tree);
canonicalization collapses `.` and `..` exactly as `Path.resolve` does on
such a tree, and `Path.relative_to` is embedded as a segment-boundary
Boolean test.  Text content is modelled as `String` with UTF-8 byte
length (the default encoding in every call site of the repository).
-/

namespace FileManagerSpec

/-- Split a raw path string into `pathlib`-style components: split on the
separator character and drop empty components. -/
def segsAux (acc : List Char) : List Char → List String
  | [] => [String.mk acc.reverse]
  | c :: cs =>
    if c = '/' then String.mk acc.reverse :: segsAux [] cs
    else segsAux (c :: acc) cs

/-- Components of a raw path string (empty components dropped, as in
`PurePosixPath.parts`). -/
def segs (s : String) : List String :=
  (segsAux [] s.toList).filter (fun c => decide (c ≠ ""))

/-- Embedding of `PurePosixPath.is_absolute`: the string starts with the
separator. -/
def isAbsolute (s : String) : Bool :=
  match s.toList with
  | '/' :: _ => true
  | _ => false

/-- One step of canonicalization: `.` is dropped, `..` removes the last
segment (as at the filesystem root in POSIX, `..` of the empty path is the
empty path), any other segment is appended. -/
def canonStep (acc : List String) (seg : String) : List String :=
  if seg = "." then acc
  else if seg = ".." then acc.dropLast
  else acc ++ [seg]

/-- Embedding of `Path.resolve` on a symlink-free tree: collapse `.` and
`..` left to right. -/
def canon (l : List String) : List String := l.foldl canonStep []

/-- Embedding of the `Path.relative_to` success test: the first path is a
prefix of the second at a path-segment boundary.  This is the containment
judgement of both `_resolve_path` implementations. -/
def segPre : List String → List String → Bool
  | [], _ => true
  | _ :: _, [] => false
  | a :: as, b :: bs => a == b && segPre as bs

/-- The closed error taxonomy of `exceptions.py`, with the size error
carrying the reported current size and limit as in `FileSizeError`.
`operationError` is the `FileOperationError` that
`convert_standard_exception` produces for an exact-type `OSError`;
`unexpected` is the generic `FileManagerError` fallback it produces for
`OSError` subclasses such as `IsADirectoryError` or `NotADirectoryError`
(the `EXCEPTION_MAPPING` lookup is by exact type). -/
inductive FMError where
  | pathValidation
  | security
  | fileNotFound
  | alreadyExists
  | invalidType
  | sizeExceeded (current : Nat) (limit : Nat)
  | operationError
  | encoding
  | unexpected
deriving DecidableEq

/-- Embedding of the legacy `WorkspaceManager._resolve_path`
(`workspace_manager.py` lines 112-147): an absolute candidate is resolved
as is, a relative one is joined to the workspace root and resolved; the
canonical result must have the root as a segment-boundary prefix
(`Path.relative_to`), else `PathValidationError`. -/
def wmResolvePath (root : List String) (raw : String) : Except FMError (List String) :=
  let a := if isAbsolute raw then canon (segs raw) else canon (root ++ segs raw)
  if segPre root a then .ok a else .error .pathValidation

/-- Embedding of the Pydantic `WorkspaceManager._resolve_path`
(`src/file_manager_project/workspace_manager.py` lines 106-143): the empty
string denotes the root, an absolute candidate is rejected outright with
`PathValidationError`, a relative one is joined to the root, resolved, and
checked for segment-boundary containment. -/
def pydResolvePath (root : List String) (raw : String) : Except FMError (List String) :=
  let r := if raw = "" then "." else raw
  if isAbsolute r then .error .pathValidation
  else
    let a := canon (root ++ segs r)
    if segPre root a then .ok a else .error .pathValidation

/-- A filesystem node: a text file with its content, or a directory. -/
inductive Node where
  | file (content : String)
  | dir
deriving DecidableEq

/-- The filesystem: an association list from canonical segment paths to
nodes; the first binding for a key wins. -/
abbrev FS := List (List String × Node)

def lookupFS : FS → List String → Option Node
  | [], _ => none
  | (k, n) :: rest, p => if k = p then some n else lookupFS rest p

def insertFS (fs : FS) (p : List String) (n : Node) : FS := (p, n) :: fs

/-- One audit-log record, as built by `_log_operation`: operation name,
absolute path, success flag and the `error_type` class-name tag. -/
structure LogEntry where
  operation : String
  path : List String
  success : Bool
  errorTag : Option String
deriving DecidableEq

/-- The `type(exc).__name__` tag recorded in failure log entries. -/
def errName : FMError → String
  | .pathValidation => "PathValidationError"
  | .security => "SecurityError"
  | .fileNotFound => "FileNotFoundError"
  | .alreadyExists => "FileAlreadyExistsError"
  | .invalidType => "InvalidFileTypeError"
  | .sizeExceeded _ _ => "FileSizeError"
  | .operationError => "FileOperationError"
  | .encoding => "EncodingError"
  | .unexpected => "FileManagerError"

/-- Mutable state threaded through each handler call: the filesystem and
the in-memory `operation_log`. -/
structure HState where
  fs : FS
  log : List LogEntry
deriving DecidableEq

/-- Construction-time configuration of the legacy `FileHandler`: the
resolved `base_directory` and `max_file_size`. -/
structure FileHandler where
  base : List String
  maxFileSize : Nat
deriving DecidableEq

/-- Whether `pat` occurs as a contiguous substring of `s`, the embedding of
Python `pat in s`. -/
def charPre : List Char → List Char → Bool
  | [], _ => true
  | _ :: _, [] => false
  | a :: as, b :: bs => a == b && charPre as bs

def hasSub (p : List Char) : List Char → Bool
  | [] => charPre p []
  | c :: cs => charPre p (c :: cs) || hasSub p cs

def containsTok (s pat : String) : Bool := hasSub pat.toList s.toList

/-- The `dangerous_patterns` list of `FileHandler._validate_path`
(`file_handler.py` line 94). -/
def dangerousPatterns : List String := ["..", "~", "$", "$\x7b", "%(", "%\x7b"]

/-- The raw-text token check of `FileHandler._validate_path` line 96: the
patterns are searched in the original `file_path` string, not in the
resolved path. -/
def containsDangerous (raw : String) : Bool :=
  dangerousPatterns.any (fun pat => containsTok raw pat)

/-- Embedding of the legacy `FileHandler._validate_path` (`file_handler.py`
lines 70-109): resolve the candidate (against the base directory when
relative), raise `SecurityError` when the raw string holds any dangerous
token, then require segment-boundary containment in the base directory. -/
def validatePath (h : FileHandler) (raw : String) : Except FMError (List String) :=
  let path := if isAbsolute raw then canon (segs raw) else canon (h.base ++ segs raw)
  if containsDangerous raw then .error .security
  else if segPre h.base path then .ok path else .error .pathValidation

/-- Strict prefixes of a segment path, shortest first: the ancestor chain
that `path.parent.mkdir(parents=True)` walks. -/
def ancestors (q : List String) : List (List String) :=
  (List.range q.length).map (fun i => q.take i)

/-- `mkdir(parents=True, exist_ok=True)` succeeds iff no ancestor of the
target is an existing regular file. -/
def mkdirOk (fs : FS) (q : List String) : Bool :=
  (ancestors q).all (fun a =>
    match lookupFS fs a with
    | some (.file _) => false
    | _ => true)

/-- Create the missing ancestor directories of `q`. -/
def mkdirParents (fs : FS) (q : List String) : FS :=
  (ancestors q).foldl (fun f a =>
    match lookupFS f a with
    | none => (a, Node.dir) :: f
    | some _ => f) fs

/-- Universal-newline translation of Python text-mode reading
(`open(path, 'r')` with default `newline=None`): every `\r\n` pair and
every lone `\r` in the stored stream becomes `\n`. -/
def univNewlinesAux : List Char → List Char
  | [] => []
  | [c] => if c = '\r' then ['\n'] else [c]
  | c :: d :: rest =>
    if c = '\r' then
      if d = '\n' then '\n' :: univNewlinesAux rest
      else '\n' :: univNewlinesAux (d :: rest)
    else c :: univNewlinesAux (d :: rest)

def univNewlines (s : String) : String := String.mk (univNewlinesAux s.toList)

/-- Whether a string is free of carriage returns, the condition under
which text-mode reading returns the stored content verbatim. -/
def noCR (s : String) : Bool := s.toList.all (fun c => decide (c ≠ '\r'))

/-- Embedding of the legacy `FileHandler.read_file` (`file_handler.py`
lines 145-190).  Taxonomy exceptions (`_validate_path` failures, not-found,
wrong type, size) are re-raised without a log record — only the success
path appends to the log in this pure model, mirroring the
`except (FileManagerError,): raise` branch.  The on-disk size check uses
the stored bytes; the returned content is the stored stream after the
text-mode universal-newline translation. -/
def readFile (h : FileHandler) (st : HState) (raw : String) :
    Except FMError String × HState :=
  match validatePath h raw with
  | .error e => (.error e, st)
  | .ok q =>
    match lookupFS st.fs q with
    | none => (.error .fileNotFound, st)
    | some .dir => (.error .invalidType, st)
    | some (.file c) =>
      if c.utf8ByteSize > h.maxFileSize then
        (.error (.sizeExceeded c.utf8ByteSize h.maxFileSize), st)
      else (.ok (univNewlines c), ⟨st.fs, st.log ++ [⟨"read", q, true, none⟩]⟩)

/-- Embedding of the legacy `FileHandler.write_file` (`file_handler.py`
lines 192-251): existence check under `overwrite=False`, then the content
size check against `max_file_size`, then parent creation and the write.
An `open` failure (parent or target is the wrong kind of node) is an
`OSError` converted to `FileOperationError` and logged; directly-raised
taxonomy errors are not logged. -/
def writeFile (h : FileHandler) (st : HState) (raw content : String)
    (overwrite : Bool) : Except FMError Unit × HState :=
  match validatePath h raw with
  | .error e => (.error e, st)
  | .ok q =>
    if !overwrite && (lookupFS st.fs q).isSome then (.error .alreadyExists, st)
    else if content.utf8ByteSize > h.maxFileSize then
      (.error (.sizeExceeded content.utf8ByteSize h.maxFileSize), st)
    else if !mkdirOk st.fs q then
      (.error .unexpected,
        ⟨st.fs, st.log ++ [⟨"write", q, false, some (errName .unexpected)⟩]⟩)
    else
      match lookupFS st.fs q with
      | some .dir =>
        (.error .unexpected,
          ⟨st.fs, st.log ++ [⟨"write", q, false, some (errName .unexpected)⟩]⟩)
      | _ =>
        (.ok (),
          ⟨insertFS (mkdirParents st.fs q) q (.file content),
            st.log ++ [⟨"write", q, true, none⟩]⟩)

/-- Embedding of the legacy `FileHandler.append_file` (`file_handler.py`
lines 253-306).  The size check `existing + new > max` runs only inside
`if path.exists()`; a non-existent target is created with no size check at
all.  An `open` or `mkdir` failure is an `OSError` subclass, converted by
the exact-type `EXCEPTION_MAPPING` to the generic `FileManagerError` and
logged (an existing directory's transient `stat().st_size` is modelled as
zero, which the claims never exercise). -/
def appendFile (h : FileHandler) (st : HState) (raw content : String) :
    Except FMError Unit × HState :=
  match validatePath h raw with
  | .error e => (.error e, st)
  | .ok q =>
    match lookupFS st.fs q with
    | some (.file c) =>
      if c.utf8ByteSize + content.utf8ByteSize > h.maxFileSize then
        (.error (.sizeExceeded (c.utf8ByteSize + content.utf8ByteSize) h.maxFileSize), st)
      else if !mkdirOk st.fs q then
        (.error .unexpected,
          ⟨st.fs, st.log ++ [⟨"append", q, false, some (errName .unexpected)⟩]⟩)
      else
        (.ok (),
          ⟨insertFS (mkdirParents st.fs q) q (.file (c ++ content)),
            st.log ++ [⟨"append", q, true, none⟩]⟩)
    | some .dir =>
      if content.utf8ByteSize > h.maxFileSize then
        (.error (.sizeExceeded content.utf8ByteSize h.maxFileSize), st)
      else
        (.error .unexpected,
          ⟨st.fs, st.log ++ [⟨"append", q, false, some (errName .unexpected)⟩]⟩)
    | none =>
      if !mkdirOk st.fs q then
        (.error .unexpected,
          ⟨st.fs, st.log ++ [⟨"append", q, false, some (errName .unexpected)⟩]⟩)
      else
        (.ok (),
          ⟨insertFS (mkdirParents st.fs q) q (.file content),
            st.log ++ [⟨"append", q, true, none⟩]⟩)

/-- Embedding of the legacy `FileHandler.get_file_info` (`file_handler.py`
lines 332-379), reduced to the observable used by the claims: success with
the node's size, or the taxonomy error. -/
def getFileInfo (h : FileHandler) (st : HState) (raw : String) :
    Except FMError Nat × HState :=
  match validatePath h raw with
  | .error e => (.error e, st)
  | .ok q =>
    match lookupFS st.fs q with
    | none => (.error .fileNotFound, st)
    | some .dir => (.ok 0, ⟨st.fs, st.log ++ [⟨"info", q, true, none⟩]⟩)
    | some (.file c) => (.ok c.utf8ByteSize, ⟨st.fs, st.log ++ [⟨"info", q, true, none⟩]⟩)

def removeFS (fs : FS) (q : List String) : FS :=
  fs.filter (fun e => decide (e.1 ≠ q))

/-- Remove `q` together with every path below it (`shutil.rmtree`). -/
def removeTree (fs : FS) (q : List String) : FS :=
  fs.filter (fun e => !segPre q e.1)

/-- Whether the directory `q` has any entry strictly below it. -/
def dirHasChild (fs : FS) (q : List String) : Bool :=
  fs.any (fun e => segPre q e.1 && decide (e.1 ≠ q))

/-- Embedding of the legacy `WorkspaceManager.delete_item`
(`workspace_manager.py` lines 380-424) and, with identical observable
order of checks, the Pydantic `delete_item` (lines 327-368): resolve, fail
`NotFound` when the item is absent, fail `SecurityError` when the resolved
path is the workspace root, then unlink a file, force-delete a directory
recursively, or `rmdir` an empty directory (`OSError` on a non-empty one
being converted and logged). -/
def deleteItem (root : List String) (st : HState) (raw : String)
    (force : Bool) : Except FMError Unit × HState :=
  match wmResolvePath root raw with
  | .error e => (.error e, st)
  | .ok q =>
    match lookupFS st.fs q with
    | none => (.error .fileNotFound, st)
    | some n =>
      if q = root then (.error .security, st)
      else
        match n with
        | .file _ =>
          (.ok (), ⟨removeFS st.fs q, st.log ++ [⟨"delete", q, true, none⟩]⟩)
        | .dir =>
          if force then
            (.ok (), ⟨removeTree st.fs q, st.log ++ [⟨"delete", q, true, none⟩]⟩)
          else if dirHasChild st.fs q then
            (.error .operationError,
              ⟨st.fs, st.log ++ [⟨"delete", q, false, some (errName .operationError)⟩]⟩)
          else
            (.ok (), ⟨removeFS st.fs q, st.log ++ [⟨"delete", q, true, none⟩]⟩)

/-- The response of the Pydantic `file_exists`: the operation-level success
flag and the existence answer (source fields `success` and `exists`). -/
structure ExistsResp where
  success : Bool
  existsFlag : Bool
deriving DecidableEq

/-- The path computation inside the Pydantic `FileHandler.file_exists`
(`src/file_manager_project/file_handler.py` lines 326-381): an absolute
candidate is resolved as is, a relative one against the base directory. -/
def pydCheckPath (base : List String) (raw : String) : List String :=
  if isAbsolute raw then canon (segs raw) else canon (base ++ segs raw)

/-- Embedding of the Pydantic `FileHandler.file_exists`: when the resolved
path is contained in the base directory the check itself succeeds
(`success=true`) and reports whether the node exists; a containment
failure (`ValueError` from `relative_to`) is caught, logged with the
`get_error_category` tag of a non-taxonomy exception (`"unknown"`), and
reported as `success=false` — it is never raised to the caller. -/
def pydFileExists (h : FileHandler) (st : HState) (raw : String) :
    ExistsResp × HState :=
  let a := pydCheckPath h.base raw
  if segPre h.base a then
    (⟨true, (lookupFS st.fs a).isSome⟩,
      ⟨st.fs, st.log ++ [⟨"exists_check", a, true, none⟩]⟩)
  else
    (⟨false, false⟩,
      ⟨st.fs, st.log ++ [⟨"exists_check", a, false, some "unknown"⟩]⟩)

/-- Code points of a string, the embedding of Python string comparison. -/
def codes (s : String) : List Nat := s.toList.map Char.toNat

/-- Lexicographic `<=` on code-point sequences (Python string `<=`). -/
def lexLE : List Nat → List Nat → Bool
  | [], _ => true
  | _ :: _, [] => false
  | a :: as, b :: bs => if a = b then lexLE as bs else decide (a < b)

/-- Lexicographic `<` on code-point sequences (Python string `<`). -/
def lexLT : List Nat → List Nat → Bool
  | [], [] => false
  | [], _ :: _ => true
  | _ :: _, [] => false
  | a :: as, b :: bs => if a = b then lexLT as bs else decide (a < b)

/-- One listed item as the claims observe it: its kind tag (`type.value`)
and its name. -/
structure PItem where
  kind : String
  name : String
deriving DecidableEq

/-- The Python sort key `(x.type.value, x.name.lower())` of the Pydantic
`list_directory`, as a Boolean total preorder: compare the kind strings
first, then the lowercased names. -/
def pydItemLE (a b : PItem) : Bool :=
  if codes a.kind = codes b.kind then
    lexLE (codes a.name.toLower) (codes b.name.toLower)
  else lexLT (codes a.kind) (codes b.kind)

/-- The legacy sort key `x["name"].lower()`. -/
def lowerLE (a b : String) : Bool := lexLE (codes a.toLower) (codes b.toLower)

/-- Stable insertion of `a` in front of the first element it compares
below — the embedding of an in-place comparison sort. -/
def insertSorted (le : α → α → Bool) (a : α) : List α → List α
  | [] => [a]
  | b :: bs => if le a b then a :: b :: bs else b :: insertSorted le a bs

/-- Comparison sort by the Boolean relation `le` (`list.sort(key=...)`). -/
def insertionSort (le : α → α → Bool) : List α → List α
  | [] => []
  | a :: as => insertSorted le a (insertionSort le as)

/-- The embedding of `name.startswith('.')`. -/
def isHidden (s : String) : Bool :=
  match s.toList with
  | '.' :: _ => true
  | _ => false

/-- Split a file name on dots, for the `pathlib` suffix computation. -/
def splitDots (acc : List Char) : List Char → List String
  | [] => [String.mk acc.reverse]
  | c :: cs =>
    if c = '.' then String.mk acc.reverse :: splitDots [] cs
    else splitDots (c :: acc) cs

/-- The embedding of `pathlib` `.suffix`: the final dotted component, with
the dot; empty when there is none, when the name ends in a dot, or when a
hidden name has no second dot. -/
def extSuffix (name : String) : String :=
  match splitDots [] name.toList with
  | [] => ""
  | [_] => ""
  | ps =>
    if isHidden name && decide (ps.length = 2) then ""
    else
      if ps.getLastD "" = "" then "" else "." ++ ps.getLastD ""

/-- The `_check_extension` test of the Pydantic `WorkspaceManager`: the
allow-list (already lowercased) is empty, or holds the lowercased suffix. -/
def checkExtension (allowed : List String) (name : String) : Bool :=
  allowed.isEmpty || allowed.contains ((extSuffix name).toLower)

/-- The immediate children of directory `q`: entries one segment deeper
whose path extends `q`, with their final segment as name (the embedding of
`Path.iterdir`, in filesystem-list order). -/
def childEntries (fs : FS) (q : List String) : List (String × Node) :=
  fs.filterMap (fun e =>
    if decide (e.1.length = q.length + 1) && segPre q e.1 then
      some (e.1.getLastD "", e.2)
    else none)

/-- The `type.value` tag of a node. -/
def nodeKind : Node → String
  | .file _ => "file"
  | .dir => "directory"

/-- The return shape of the legacy `list_directory`: separate `files`,
`directories` and `other` collections (`workspace_manager.py` line 197). -/
structure LegacyListing where
  files : List String
  directories : List String
  other : List String
deriving DecidableEq

/-- Embedding of the legacy `WorkspaceManager.list_directory`
(`workspace_manager.py` lines 169-246): entries are grouped into the
`files` / `directories` / `other` collections and each collection is
sorted by lowercased name alone.  Symlinks and specials do not exist in
this filesystem model, so `other` is always empty. -/
def legacyListDirectory (root : List String) (st : HState) (raw : String)
    (includeHidden : Bool) : Except FMError LegacyListing × HState :=
  match wmResolvePath root raw with
  | .error e => (.error e, st)
  | .ok q =>
    match lookupFS st.fs q with
    | none => (.error .fileNotFound, st)
    | some (.file _) => (.error .operationError, st)
    | some .dir =>
      let items := (childEntries st.fs q).filter
        (fun it => includeHidden || !(isHidden it.1))
      let fileNames := insertionSort lowerLE
        ((items.filter (fun it =>
          match it.2 with
          | .file _ => true
          | _ => false)).map (fun it => it.1))
      let dirNames := insertionSort lowerLE
        ((items.filter (fun it =>
          match it.2 with
          | .dir => true
          | _ => false)).map (fun it => it.1))
      (.ok ⟨fileNames, dirNames, []⟩,
        ⟨st.fs, st.log ++ [⟨"list_directory", q, true, none⟩]⟩)

/-- The entries of a legacy listing in the order the response presents
them: the `files` collection, then `directories`, then `other`, with their
kind tags. -/
def flattenListing (r : LegacyListing) : List PItem :=
  r.files.map (fun n => ⟨"file", n⟩) ++
    r.directories.map (fun n => ⟨"directory", n⟩) ++
    r.other.map (fun n => ⟨"other", n⟩)

/-- Embedding of the Pydantic `WorkspaceManager.list_directory`
(`src/file_manager_project/workspace_manager.py` lines 178-236): one flat
item sequence, hidden-name and type filters, the extension allow-list
applied to files only, sorted by `(type.value, name.lower())`.  A failure
is re-wrapped by `convert_standard_exception` before being logged with its
`get_error_category` tag: the custom `FileNotFoundError` survives as
`"file_not_found"`, while `PathValidationError` and `InvalidFileTypeError`
become the generic `FileManagerError`, category `"unknown"`. -/
def pydListDirectory (root : List String) (allowed : List String)
    (st : HState) (raw : String) (includeHidden : Bool)
    (filterTypes : Option (List String)) :
    Except FMError (List PItem) × HState :=
  match pydResolvePath root raw with
  | .error e =>
    (.error e, ⟨st.fs, st.log ++ [⟨"list_directory", root, false, some "unknown"⟩]⟩)
  | .ok q =>
    match lookupFS st.fs q with
    | none =>
      (.error .fileNotFound,
        ⟨st.fs, st.log ++ [⟨"list_directory", q, false, some "file_not_found"⟩]⟩)
    | some (.file _) =>
      (.error .invalidType,
        ⟨st.fs, st.log ++ [⟨"list_directory", q, false, some "unknown"⟩]⟩)
    | some .dir =>
      let cs := (childEntries st.fs q).filter
        (fun it => includeHidden || !(isHidden it.1))
      let cs2 := cs.filter (fun it =>
        match filterTypes with
        | none => true
        | some ts => ts.contains (nodeKind it.2))
      let cs3 := cs2.filter (fun it =>
        match it.2 with
        | .file _ => checkExtension allowed it.1
        | .dir => true)
      let items := insertionSort pydItemLE (cs3.map (fun it => ⟨nodeKind it.2, it.1⟩))
      (.ok items, ⟨st.fs, st.log ++ [⟨"list_directory", q, true, none⟩]⟩)

theorem canon_append_dot (l : List String) : canon (l ++ ["."]) = canon l := by
  simp [canon, List.foldl_append, canonStep]

/-- C1: a relative candidate whose canonicalization against the workspace
root lands outside the root (the root is not a segment-boundary prefix of
the canonical path) is rejected with a `PathValidation` error by both
implementations of `_resolve_path`; a candidate that canonicalizes inside
the root resolves to exactly that canonical path, which has the root as a
segment-boundary prefix (the root itself or a descendant). -/
theorem C1_resolve_confinement (root : List String) (raw : String)
    (habs : isAbsolute raw = false) :
    (segPre root (canon (root ++ segs raw)) = false →
      wmResolvePath root raw = .error .pathValidation ∧
      pydResolvePath root raw = .error .pathValidation) ∧
    (segPre root (canon (root ++ segs raw)) = true →
      wmResolvePath root raw = .ok (canon (root ++ segs raw)) ∧
      pydResolvePath root raw = .ok (canon (root ++ segs raw))) := by
  by_cases h0 : raw = ""
  · subst h0
    have hdot : segs "." = ["."] := rfl
    have hnil : segs "" = [] := rfl
    constructor
    · intro hout
      have hout' : segPre root (canon root) = false := by
        simpa [hnil] using hout
      have hr : (if ("" : String) = "" then "." else "") = "." := if_pos rfl
      constructor
      · simp only [wmResolvePath]
        rw [if_neg (by decide : ¬ isAbsolute "" = true), hnil, List.append_nil]
        rw [if_neg (by simp [hout'])]
      · simp only [pydResolvePath, hr, if_true]
        rw [if_neg (by decide : ¬ isAbsolute "." = true), hdot, canon_append_dot]
        rw [if_neg (by simp [hout'])]
    · intro hin
      have hin' : segPre root (canon root) = true := by
        simpa [hnil] using hin
      have hr : (if ("" : String) = "" then "." else "") = "." := if_pos rfl
      constructor
      · simp only [wmResolvePath]
        rw [if_neg (by decide : ¬ isAbsolute "" = true), hnil, List.append_nil]
        rw [if_pos hin']
      · simp only [pydResolvePath, hr, if_true]
        rw [if_neg (by decide : ¬ isAbsolute "." = true), hdot, canon_append_dot]
        rw [if_pos hin']
        simp [hnil]
  · constructor
    · intro hout
      constructor
      · simp [wmResolvePath, habs, hout]
      · simp [pydResolvePath, h0, habs, hout]
    · intro hin
      constructor
      · simp [wmResolvePath, habs, hin]
      · simp [pydResolvePath, h0, habs, hin]

/-- C1 witness: for root `/root`, the candidate `../root-evil` canonicalizes
to `/root-evil`, which is not contained at a segment boundary, and both
resolvers reject it; the candidate `docs/a.txt` resolves to the descendant
`/root/docs/a.txt`. -/
theorem C1_resolve_confinement_witness :
    wmResolvePath ["root"] "../root-evil" = .error .pathValidation ∧
    pydResolvePath ["root"] "../root-evil" = .error .pathValidation ∧
    wmResolvePath ["root"] "docs/a.txt" = .ok (canon (["root"] ++ segs "docs/a.txt")) ∧
    canon (["root"] ++ segs "docs/a.txt") = ["root", "docs", "a.txt"] := by
  refine ⟨?_, ?_, ?_, by decide⟩
  · exact ((C1_resolve_confinement ["root"] "../root-evil" rfl).1 (by decide)).1
  · exact ((C1_resolve_confinement ["root"] "../root-evil" rfl).1 (by decide)).2
  · exact ((C1_resolve_confinement ["root"] "docs/a.txt" rfl).2 (by decide)).1

/-- C6 counterexample: the legacy `WorkspaceManager._resolve_path` accepts
an absolute candidate that lies inside the workspace root (for root `/ws`,
the absolute candidate `/ws/a.txt` resolves successfully), so the claim
that every absolute candidate is rejected with a `PathValidation` error is
false on the legacy implementation cited by the claim. -/
theorem C6_absolute_inside_accepted :
    isAbsolute "/ws/a.txt" = true ∧
    wmResolvePath ["ws"] "/ws/a.txt" = .ok ["ws", "a.txt"] := by
  exact ⟨rfl, rfl⟩

/-- C6 amended: the Pydantic `WorkspaceManager._resolve_path` rejects every
absolute candidate with a `PathValidation` error, even one inside the
workspace root; the legacy resolver instead accepts an absolute candidate
exactly when its canonical form is contained in the root at a segment
boundary. -/
theorem C6_pyd_absolute_rejected (root : List String) (raw : String)
    (habs : isAbsolute raw = true) :
    pydResolvePath root raw = .error .pathValidation ∧
    wmResolvePath root raw =
      (if segPre root (canon (segs raw)) then .ok (canon (segs raw))
       else .error .pathValidation) := by
  have hne : raw ≠ "" := by
    intro h
    rw [h] at habs
    exact absurd habs (by decide)
  constructor
  · simp [pydResolvePath, hne, habs]
  · simp [wmResolvePath, habs]

/-- C6 amended witness: the absolute in-root candidate `/ws/a.txt` is
rejected by the Pydantic resolver and accepted by the legacy one. -/
theorem C6_pyd_absolute_rejected_witness :
    pydResolvePath ["ws"] "/ws/a.txt" = .error .pathValidation := by
  exact (C6_pyd_absolute_rejected ["ws"] "/ws/a.txt" rfl).1

/-- C10: a candidate whose raw text holds any dangerous token fails
`FileHandler._validate_path` with `SecurityError` — before any containment
or filesystem reasoning — so read, write, append and info on such a
candidate all return the `SecurityError` and leave the state untouched,
even when the candidate would canonicalize safely inside the base. -/
theorem C10_dangerous_token_security (h : FileHandler) (st : HState)
    (raw : String) (hd : containsDangerous raw = true) :
    validatePath h raw = .error .security ∧
    readFile h st raw = (.error .security, st) ∧
    (∀ (content : String) (overwrite : Bool),
      writeFile h st raw content overwrite = (.error .security, st)) ∧
    (∀ content : String, appendFile h st raw content = (.error .security, st)) ∧
    getFileInfo h st raw = (.error .security, st) := by
  have hv : validatePath h raw = .error .security := by
    simp [validatePath, hd]
  refine ⟨hv, ?_, ?_, ?_, ?_⟩
  · simp [readFile, hv]
  · intro content overwrite
    simp [writeFile, hv]
  · intro content
    simp [appendFile, hv]
  · simp [getFileInfo, hv]

/-- C10 witness: the candidate `a/../b.txt` canonicalizes inside the base
`/ws` (to `/ws/b.txt`), yet validation and reading fail with
`SecurityError` because the raw text holds `..`. -/
theorem C10_dangerous_token_security_witness :
    containsDangerous "a/../b.txt" = true ∧
    segPre ["ws"] (canon (["ws"] ++ segs "a/../b.txt")) = true ∧
    canon (["ws"] ++ segs "a/../b.txt") = ["ws", "b.txt"] ∧
    readFile ⟨["ws"], 100⟩ ⟨[(["ws"], Node.dir)], []⟩ "a/../b.txt" =
      (.error .security, ⟨[(["ws"], Node.dir)], []⟩) := by
  refine ⟨by decide, by decide, by decide, ?_⟩
  exact (C10_dangerous_token_security ⟨["ws"], 100⟩ ⟨[(["ws"], Node.dir)], []⟩
    "a/../b.txt" (by decide)).2.1

theorem univNewlinesAux_of_noCR :
    ∀ l : List Char, (∀ x ∈ l, x ≠ '\r') → univNewlinesAux l = l := by
  intro l
  induction l with
  | nil => intro _; rfl
  | cons c rest ih =>
    intro h
    have hc : c ≠ '\r' := h c (List.mem_cons_self c rest)
    cases rest with
    | nil => simp [univNewlinesAux, hc]
    | cons d rest2 =>
      have hrest : ∀ x ∈ d :: rest2, x ≠ '\r' :=
        fun x hx => h x (List.mem_cons_of_mem c hx)
      simp only [univNewlinesAux, if_neg hc]
      rw [ih hrest]

theorem univNewlines_of_noCR (c : String) (h : noCR c = true) :
    univNewlines c = c := by
  have h2 : ∀ x ∈ c.toList, x ≠ '\r' := by
    intro x hx
    have := List.all_eq_true.mp h x hx
    simpa using this
  unfold univNewlines
  rw [univNewlinesAux_of_noCR c.toList h2]
  rfl

/-- Shared helper: under a successful path validation, a content within the
size limit, creatable parents and a target that is not a directory, the
legacy `write_file` stores the content and logs one success record. -/
theorem writeFile_ok (h : FileHandler) (st : HState) (raw c : String)
    (q : List String) (hv : validatePath h raw = .ok q)
    (hsz : c.utf8ByteSize ≤ h.maxFileSize)
    (hmk : mkdirOk st.fs q = true)
    (hnd : lookupFS st.fs q ≠ some Node.dir) :
    writeFile h st raw c true =
      (.ok (), ⟨insertFS (mkdirParents st.fs q) q (.file c),
        st.log ++ [⟨"write", q, true, none⟩]⟩) := by
  unfold writeFile
  rw [hv]
  cases hl : lookupFS st.fs q with
  | none =>
    simp only [hl, Bool.not_true, Bool.false_and, Bool.false_eq_true, if_false,
      Option.isSome_none]
    rw [if_neg (by omega : ¬ c.utf8ByteSize > h.maxFileSize)]
    simp [hmk]
  | some n =>
    cases n with
    | file c2 =>
      simp only [hl, Bool.not_true, Bool.false_and, Bool.false_eq_true, if_false,
        Option.isSome_some]
      rw [if_neg (by omega : ¬ c.utf8ByteSize > h.maxFileSize)]
      simp [hmk]
    | dir => exact absurd hl hnd

/-- C3 amended: writing a carriage-return-free content whose encoded byte
length is within the size limit at a valid path (validation succeeds, the
parents can be created and the target is not a directory) succeeds, and
reading the same path back returns exactly that content; for content
holding `\r`, the text-mode read instead returns the content with every
`\r\n` and lone `\r` translated to `\n`. -/
theorem C3_write_read_roundtrip (h : FileHandler) (st : HState)
    (raw c : String) (q : List String)
    (hv : validatePath h raw = .ok q)
    (hsz : c.utf8ByteSize ≤ h.maxFileSize)
    (hmk : mkdirOk st.fs q = true)
    (hnd : lookupFS st.fs q ≠ some Node.dir)
    (hcr : noCR c = true) :
    (writeFile h st raw c true).1 = .ok () ∧
    (readFile h (writeFile h st raw c true).2 raw).1 = .ok c := by
  have hw := writeFile_ok h st raw c q hv hsz hmk hnd
  constructor
  · rw [hw]
  · rw [hw]
    have hlook : lookupFS (insertFS (mkdirParents st.fs q) q (Node.file c)) q
        = some (Node.file c) := by
      simp [insertFS, lookupFS]
    simp only [readFile, hv, hlook]
    rw [if_neg (by omega : ¬ c.utf8ByteSize > h.maxFileSize),
      univNewlines_of_noCR c hcr]

/-- C3 witness: in a workspace `/ws`, writing `"hi"` to `notes.txt` under a
100-byte limit and reading it back yields `"hi"`. -/
theorem C3_write_read_roundtrip_witness :
    (writeFile ⟨["ws"], 100⟩ ⟨[(["ws"], Node.dir)], []⟩ "notes.txt" "hi" true).1 = .ok () ∧
    (readFile ⟨["ws"], 100⟩
      (writeFile ⟨["ws"], 100⟩ ⟨[(["ws"], Node.dir)], []⟩ "notes.txt" "hi" true).2
      "notes.txt").1 = .ok "hi" := by
  exact C3_write_read_roundtrip ⟨["ws"], 100⟩ ⟨[(["ws"], Node.dir)], []⟩
    "notes.txt" "hi" ["ws", "notes.txt"] rfl (by decide) (by decide) (by decide)
    (by decide)

/-- C3 counterexample: writing `"a\r\nb"` (within the limit) and reading
the same path back returns `"a\nb"`, not the written content — text-mode
reading translates the `\r\n` to `\n` — so the exact round-trip claimed
for every in-limit content string is false on the code. -/
theorem C3_crlf_roundtrip_fails :
    (writeFile ⟨["ws"], 100⟩ ⟨[(["ws"], Node.dir)], []⟩ "notes.txt"
      "a\r\nb" true).1 = .ok () ∧
    (readFile ⟨["ws"], 100⟩
      (writeFile ⟨["ws"], 100⟩ ⟨[(["ws"], Node.dir)], []⟩ "notes.txt"
        "a\r\nb" true).2
      "notes.txt").1 = .ok "a\nb" ∧
    ("a\nb" : String) ≠ "a\r\nb" := by
  exact ⟨rfl, rfl, by decide⟩

/-- C5: at a valid, writable path, content of exactly the configured size
limit is written successfully, while content of limit+1 bytes fails with a
`SizeExceeded` error whose reported current size is limit+1, and the state
(filesystem and log) is completely unchanged. -/
theorem C5_write_size_boundary (h : FileHandler) (st : HState)
    (raw c d : String) (q : List String)
    (hv : validatePath h raw = .ok q)
    (hceq : c.utf8ByteSize = h.maxFileSize)
    (hmk : mkdirOk st.fs q = true)
    (hnd : lookupFS st.fs q ≠ some Node.dir)
    (hdeq : d.utf8ByteSize = h.maxFileSize + 1) :
    (writeFile h st raw c true).1 = .ok () ∧
    writeFile h st raw d true =
      (.error (.sizeExceeded (h.maxFileSize + 1) h.maxFileSize), st) := by
  constructor
  · rw [writeFile_ok h st raw c q hv (by omega) hmk hnd]
  · unfold writeFile
    rw [hv]
    simp only [Bool.not_true, Bool.false_and, Bool.false_eq_true, if_false]
    rw [if_pos (by omega : d.utf8ByteSize > h.maxFileSize), hdeq]

/-- C5 witness: with a 2-byte limit, writing `"hi"` (2 bytes) succeeds and
writing `"hi!"` (3 bytes) fails with `SizeExceeded` reporting current size
3 and limit 2, leaving the state unchanged. -/
theorem C5_write_size_boundary_witness :
    (writeFile ⟨["ws"], 2⟩ ⟨[(["ws"], Node.dir)], []⟩ "a.txt" "hi" true).1 = .ok () ∧
    writeFile ⟨["ws"], 2⟩ ⟨[(["ws"], Node.dir)], []⟩ "a.txt" "hi!" true =
      (.error (.sizeExceeded 3 2), ⟨[(["ws"], Node.dir)], []⟩) := by
  exact C5_write_size_boundary ⟨["ws"], 2⟩ ⟨[(["ws"], Node.dir)], []⟩
    "a.txt" "hi" "hi!" ["ws", "a.txt"] rfl (by decide) (by decide)
    (by decide) (by decide)

/-- C4: evaluation of the legacy `append_file` at the failing input.  With
a 3-byte limit and no existing file, appending the 4-byte content `"abcd"`
to `f.txt` succeeds and creates a file of 4 bytes — the size check is
skipped for a non-existent target, contradicting the claim (and the
function's own documented `FileSizeError` behaviour). -/
theorem C4_append_oversize_created :
    "abcd".utf8ByteSize = 4 ∧
    (appendFile ⟨["ws"], 3⟩ ⟨[(["ws"], Node.dir)], []⟩ "f.txt" "abcd").1 = .ok () ∧
    lookupFS (appendFile ⟨["ws"], 3⟩ ⟨[(["ws"], Node.dir)], []⟩ "f.txt" "abcd").2.fs
      ["ws", "f.txt"] = some (.file "abcd") := by
  exact ⟨rfl, rfl, rfl⟩

/-- C8 counterexample: reading an absent file through the legacy
`read_file` fails with the directly-raised taxonomy error `NotFound`, yet
the operation log stays empty — no `success=false` record is appended
before the failure is returned, contradicting the claim that every failure
is logged. -/
theorem C8_notfound_failure_not_logged :
    readFile ⟨["ws"], 100⟩ ⟨[(["ws"], Node.dir)], []⟩ "a.txt" =
      (.error .fileNotFound, ⟨[(["ws"], Node.dir)], []⟩) ∧
    (readFile ⟨["ws"], 100⟩ ⟨[(["ws"], Node.dir)], []⟩ "a.txt").2.log = [] := by
  exact ⟨rfl, rfl⟩

/-- C8 amended: in the legacy implementation a failing `read_file` call —
whose failures are all directly-raised taxonomy exceptions (path
validation, security, not-found, wrong type, size) — appends no record to
the operation log and leaves the state unchanged; only failures converted
from standard OS-level exceptions are logged with their error kind. -/
theorem C8_taxonomy_failure_unlogged (h : FileHandler) (st : HState)
    (raw : String) (e : FMError)
    (hf : (readFile h st raw).1 = .error e) :
    (readFile h st raw).2 = st := by
  cases hv : validatePath h raw with
  | error e2 => simp [readFile, hv]
  | ok q =>
    cases hl : lookupFS st.fs q with
    | none => simp [readFile, hv, hl]
    | some n =>
      cases n with
      | dir => simp [readFile, hv, hl]
      | file c =>
        by_cases hsz : c.utf8ByteSize > h.maxFileSize
        · simp [readFile, hv, hl, hsz]
        · simp only [readFile, hv, hl] at hf
          rw [if_neg hsz] at hf
          simp at hf

/-- C8 amended witness: the not-found failure on `nope.txt` leaves the
state (including the log) exactly as it was. -/
theorem C8_taxonomy_failure_unlogged_witness :
    (readFile ⟨["ws"], 100⟩ ⟨[(["ws"], Node.dir)], []⟩ "nope.txt").2 =
      ⟨[(["ws"], Node.dir)], []⟩ := by
  exact C8_taxonomy_failure_unlogged ⟨["ws"], 100⟩ ⟨[(["ws"], Node.dir)], []⟩
    "nope.txt" .fileNotFound rfl

/-- C2: whenever the candidate resolves to the workspace root itself (in
particular for the relative path `"."`) and the root exists, `delete_item`
fails with `SecurityError` and the state — filesystem and log alike — is
completely unchanged, for both values of `force`. -/
theorem C2_delete_root_security (root : List String) (st : HState)
    (raw : String) (force : Bool) (nd : Node)
    (hres : wmResolvePath root raw = .ok root)
    (hex : lookupFS st.fs root = some nd) :
    deleteItem root st raw force = (.error .security, st) := by
  simp [deleteItem, hres, hex]

/-- C2 witness: deleting `"."` in workspace `/ws` fails with
`SecurityError` and removes nothing, under both `force=true` and
`force=false`. -/
theorem C2_delete_root_security_witness :
    deleteItem ["ws"] ⟨[(["ws"], Node.dir), (["ws", "a.txt"], Node.file "x")], []⟩
      "." true = (.error .security,
        ⟨[(["ws"], Node.dir), (["ws", "a.txt"], Node.file "x")], []⟩) ∧
    deleteItem ["ws"] ⟨[(["ws"], Node.dir), (["ws", "a.txt"], Node.file "x")], []⟩
      "." false = (.error .security,
        ⟨[(["ws"], Node.dir), (["ws", "a.txt"], Node.file "x")], []⟩) := by
  constructor
  · exact C2_delete_root_security ["ws"]
      ⟨[(["ws"], Node.dir), (["ws", "a.txt"], Node.file "x")], []⟩ "." true
      Node.dir rfl rfl
  · exact C2_delete_root_security ["ws"]
      ⟨[(["ws"], Node.dir), (["ws", "a.txt"], Node.file "x")], []⟩ "." false
      Node.dir rfl rfl

/-- C7: for a candidate that passes path-safety validation but names no
existing node, `file_exists` answers `success=true, exists=false` without
any error; and whenever `file_exists` reports failure, the candidate's
resolved path violates containment in the base directory — mere absence
never produces a failure. -/
theorem C7_exists_query_no_failure (h : FileHandler) (st : HState)
    (raw : String)
    (hin : segPre h.base (pydCheckPath h.base raw) = true)
    (habs : lookupFS st.fs (pydCheckPath h.base raw) = none) :
    (pydFileExists h st raw).1 = ⟨true, false⟩ ∧
    ∀ (st2 : HState) (raw2 : String),
      (pydFileExists h st2 raw2).1.success = false →
      segPre h.base (pydCheckPath h.base raw2) = false := by
  constructor
  · simp [pydFileExists, hin, habs]
  · intro st2 raw2 hfail
    by_cases hp : segPre h.base (pydCheckPath h.base raw2) = true
    · simp [pydFileExists, hp] at hfail
    · simpa using hp

/-- C7 witness: checking the absent `nope.txt` in workspace `/ws` answers
`success=true, exists=false`. -/
theorem C7_exists_query_no_failure_witness :
    (pydFileExists ⟨["ws"], 100⟩ ⟨[(["ws"], Node.dir)], []⟩ "nope.txt").1 =
      ⟨true, false⟩ := by
  exact (C7_exists_query_no_failure ⟨["ws"], 100⟩ ⟨[(["ws"], Node.dir)], []⟩
    "nope.txt" rfl rfl).1

theorem lexLE_total (xs : List Nat) : ∀ ys, lexLE xs ys = true ∨ lexLE ys xs = true := by
  induction xs with
  | nil => intro ys; exact Or.inl rfl
  | cons a as ih =>
    intro ys
    cases ys with
    | nil => exact Or.inr rfl
    | cons b bs =>
      by_cases hab : a = b
      · subst hab
        simpa [lexLE] using ih bs
      · rcases Nat.lt_or_ge a b with hlt | hge
        · left
          simp [lexLE, hab, hlt]
        · right
          have hba : b ≠ a := fun h => hab h.symm
          have : b < a := by omega
          simp [lexLE, hba, this]

theorem lexLE_trans (xs : List Nat) :
    ∀ ys zs, lexLE xs ys = true → lexLE ys zs = true → lexLE xs zs = true := by
  induction xs with
  | nil => intro ys zs h1 h2; rfl
  | cons a as ih =>
    intro ys zs h1 h2
    cases ys with
    | nil => simp [lexLE] at h1
    | cons b bs =>
      cases zs with
      | nil => simp [lexLE] at h2
      | cons c cs =>
        by_cases hab : a = b <;> by_cases hbc : b = c
        · subst hab; subst hbc
          simp only [lexLE, if_pos rfl] at h1 h2 ⊢
          exact ih bs cs h1 h2
        · subst hab
          simp only [lexLE, if_pos rfl] at h1
          simp only [lexLE, if_neg hbc] at h2
          have hlt : a < c := by
            have := of_decide_eq_true h2
            omega
          simp [lexLE, show a ≠ c by omega, hlt]
        · subst hbc
          simp only [lexLE, if_neg hab] at h1
          have hlt : a < b := of_decide_eq_true h1
          simp [lexLE, hab, hlt]
        · simp only [lexLE, if_neg hab] at h1
          simp only [lexLE, if_neg hbc] at h2
          have hlt1 : a < b := of_decide_eq_true h1
          have hlt2 : b < c := of_decide_eq_true h2
          simp [lexLE, show a ≠ c by omega, show a < c by omega]

theorem lexLT_trans (xs : List Nat) :
    ∀ ys zs, lexLT xs ys = true → lexLT ys zs = true → lexLT xs zs = true := by
  induction xs with
  | nil =>
    intro ys zs h1 h2
    cases ys with
    | nil => simp [lexLT] at h1
    | cons b bs =>
      cases zs with
      | nil => simp [lexLT] at h2
      | cons c cs => rfl
  | cons a as ih =>
    intro ys zs h1 h2
    cases ys with
    | nil => simp [lexLT] at h1
    | cons b bs =>
      cases zs with
      | nil => simp [lexLT] at h2
      | cons c cs =>
        by_cases hab : a = b <;> by_cases hbc : b = c
        · subst hab; subst hbc
          simp only [lexLT, if_pos rfl] at h1 h2 ⊢
          exact ih bs cs h1 h2
        · subst hab
          simp only [lexLT, if_neg hbc] at h2
          have hlt : a < c := of_decide_eq_true h2
          simp [lexLT, hbc, hlt]
        · subst hbc
          simp only [lexLT, if_neg hab] at h1
          have hlt : a < b := of_decide_eq_true h1
          simp [lexLT, hab, hlt]
        · simp only [lexLT, if_neg hab] at h1
          simp only [lexLT, if_neg hbc] at h2
          have hlt1 : a < b := of_decide_eq_true h1
          have hlt2 : b < c := of_decide_eq_true h2
          simp [lexLT, show a ≠ c by omega, show a < c by omega]

theorem lexLT_irrefl (xs : List Nat) : lexLT xs xs = false := by
  induction xs with
  | nil => rfl
  | cons a as ih => simp [lexLT, ih]

theorem lexLT_total_ne (xs : List Nat) :
    ∀ ys, xs ≠ ys → lexLT xs ys = true ∨ lexLT ys xs = true := by
  induction xs with
  | nil =>
    intro ys hne
    cases ys with
    | nil => exact absurd rfl hne
    | cons b bs => exact Or.inl rfl
  | cons a as ih =>
    intro ys hne
    cases ys with
    | nil => exact Or.inr rfl
    | cons b bs =>
      by_cases hab : a = b
      · subst hab
        have hne2 : as ≠ bs := by
          intro h; exact hne (by rw [h])
        simpa [lexLT] using ih bs hne2
      · rcases Nat.lt_or_ge a b with hlt | hge
        · left; simp [lexLT, hab, hlt]
        · right
          have hba : b ≠ a := fun h => hab h.symm
          simp [lexLT, hba, show b < a by omega]

theorem pydItemLE_total (a b : PItem) :
    pydItemLE a b = true ∨ pydItemLE b a = true := by
  by_cases hk : codes a.kind = codes b.kind
  · have hk2 : codes b.kind = codes a.kind := hk.symm
    simp only [pydItemLE, if_pos hk, if_pos hk2]
    exact lexLE_total _ _
  · have hk2 : ¬ codes b.kind = codes a.kind := fun h => hk h.symm
    simp only [pydItemLE, if_neg hk, if_neg hk2]
    exact lexLT_total_ne _ _ hk

theorem pydItemLE_trans (a b c : PItem) :
    pydItemLE a b = true → pydItemLE b c = true → pydItemLE a c = true := by
  intro h1 h2
  by_cases hab : codes a.kind = codes b.kind <;>
    by_cases hbc : codes b.kind = codes c.kind
  · simp only [pydItemLE, if_pos hab] at h1
    simp only [pydItemLE, if_pos hbc] at h2
    simp only [pydItemLE, if_pos (hab.trans hbc)]
    exact lexLE_trans _ _ _ h1 h2
  · simp only [pydItemLE, if_neg hbc] at h2
    have hac : ¬ codes a.kind = codes c.kind := by
      rw [hab]; exact hbc
    simp only [pydItemLE, if_neg hac]
    rw [hab]; exact h2
  · simp only [pydItemLE, if_neg hab] at h1
    have hac : ¬ codes a.kind = codes c.kind := by
      rw [← hbc]; exact hab
    simp only [pydItemLE, if_neg hac]
    rw [← hbc]; exact h1
  · simp only [pydItemLE, if_neg hab] at h1
    simp only [pydItemLE, if_neg hbc] at h2
    have hlt := lexLT_trans _ _ _ h1 h2
    have hac : ¬ codes a.kind = codes c.kind := by
      intro he
      rw [he, lexLT_irrefl] at hlt
      exact Bool.false_ne_true hlt
    simp only [pydItemLE, if_neg hac]
    exact hlt

theorem mem_insertSorted (le : α → α → Bool) (a x : α) :
    ∀ l, x ∈ insertSorted le a l → x = a ∨ x ∈ l := by
  intro l
  induction l with
  | nil => simp [insertSorted]
  | cons b bs ih =>
    simp only [insertSorted]
    split
    · intro h
      simpa using h
    · intro h
      rcases List.mem_cons.mp h with h1 | h2
      · exact Or.inr (h1 ▸ List.mem_cons_self b bs)
      · rcases ih h2 with h3 | h4
        · exact Or.inl h3
        · exact Or.inr (List.mem_cons_of_mem b h4)

theorem pairwise_insertSorted (le : α → α → Bool)
    (tot : ∀ a b, le a b = true ∨ le b a = true)
    (tr : ∀ a b c, le a b = true → le b c = true → le a c = true) (a : α) :
    ∀ l, l.Pairwise (fun x y => le x y = true) →
      (insertSorted le a l).Pairwise (fun x y => le x y = true) := by
  intro l
  induction l with
  | nil =>
    intro _
    simp [insertSorted]
  | cons b bs ih =>
    intro hp
    rcases List.pairwise_cons.mp hp with ⟨hb, hbs⟩
    simp only [insertSorted]
    split
    case isTrue hab =>
      refine List.pairwise_cons.mpr ⟨?_, hp⟩
      intro y hy
      rcases List.mem_cons.mp hy with rfl | hy2
      · exact hab
      · exact tr a b y hab (hb y hy2)
    case isFalse hab =>
      have hba : le b a = true := by
        rcases tot a b with h | h
        · exact absurd h hab
        · exact h
      refine List.pairwise_cons.mpr ⟨?_, ih hbs⟩
      intro y hy
      rcases mem_insertSorted le a y _ hy with rfl | hy2
      · exact hba
      · exact hb y hy2

theorem pairwise_insertionSort (le : α → α → Bool)
    (tot : ∀ a b, le a b = true ∨ le b a = true)
    (tr : ∀ a b c, le a b = true → le b c = true → le a c = true) :
    ∀ l : List α, (insertionSort le l).Pairwise (fun x y => le x y = true) := by
  intro l
  induction l with
  | nil => simp [insertionSort]
  | cons a as ih =>
    simpa [insertionSort] using pairwise_insertSorted le tot tr a _ ih

/-- C9 counterexample: in a workspace holding the file `b.txt` and the
directory `a`, the legacy `list_directory` returns its entries grouped
into separate `files` and `directories` collections, and in the response's
own order the file entry precedes the directory entry, which is not
ascending in the claimed key `(kind, lowercased name)` — the claim is
false on the legacy implementation its sources cite. -/
theorem C9_legacy_list_grouped :
    (legacyListDirectory ["ws"]
      ⟨[(["ws"], Node.dir), (["ws", "b.txt"], Node.file "x"),
        (["ws", "a"], Node.dir)], []⟩ "." false).1 =
      .ok ⟨["b.txt"], ["a"], []⟩ ∧
    flattenListing ⟨["b.txt"], ["a"], []⟩ =
      [⟨"file", "b.txt"⟩, ⟨"directory", "a"⟩] ∧
    pydItemLE ⟨"file", "b.txt"⟩ ⟨"directory", "a"⟩ = false := by
  exact ⟨rfl, rfl, rfl⟩

/-- C9 amended: the Pydantic `list_directory` returns its entries as one
flat sequence sorted ascending by the key `(type.value, name.lower())`,
directories and files interleaved in that single sequence; the legacy
implementation instead returns entries grouped into separate collections,
each sorted by lowercased name alone. -/
theorem C9_pyd_list_sorted (root allowed : List String) (st : HState)
    (raw : String) (includeHidden : Bool) (filterTypes : Option (List String))
    (items : List PItem)
    (hok : (pydListDirectory root allowed st raw includeHidden filterTypes).1 =
      .ok items) :
    items.Pairwise (fun x y => pydItemLE x y = true) := by
  cases hres : pydResolvePath root raw with
  | error e => simp [pydListDirectory, hres] at hok
  | ok q =>
    cases hl : lookupFS st.fs q with
    | none => simp [pydListDirectory, hres, hl] at hok
    | some n =>
      cases n with
      | file c => simp [pydListDirectory, hres, hl] at hok
      | dir =>
        simp only [pydListDirectory, hres, hl, Except.ok.injEq] at hok
        rw [← hok]
        exact pairwise_insertionSort pydItemLE pydItemLE_total pydItemLE_trans _

/-- C9 amended witness: on the same workspace as the counterexample, the
Pydantic listing is the single sequence `[directory a, file b.txt]`,
sorted by the key. -/
theorem C9_pyd_list_sorted_witness :
    (pydListDirectory ["ws"] [] ⟨[(["ws"], Node.dir),
      (["ws", "b.txt"], Node.file "x"), (["ws", "a"], Node.dir)], []⟩
      "." false none).1 = .ok [⟨"directory", "a"⟩, ⟨"file", "b.txt"⟩] ∧
    List.Pairwise (fun x y => pydItemLE x y = true)
      [(⟨"directory", "a"⟩ : PItem), ⟨"file", "b.txt"⟩] := by
  constructor
  · rfl
  · exact C9_pyd_list_sorted ["ws"] [] ⟨[(["ws"], Node.dir),
      (["ws", "b.txt"], Node.file "x"), (["ws", "a"], Node.dir)], []⟩
      "." false none [⟨"directory", "a"⟩, ⟨"file", "b.txt"⟩] rfl

end FileManagerSpec
